import Mathlib

/-
Verification of the NLP Fundamentals Explorer pipeline (src/app.py).

The program delegates every linguistic transformation to the NLTK toolkit;
its own code is the orchestration: resource provisioning with fallback,
tokenization with whitespace-split fallback, stopword filtering, stemming,
lemmatization, POS tagging with an "UNK" fallback, and named-entity
extraction from the chunker tree.  The toolkit is modelled as an abstract
environment `Env`; functions that can raise Python exceptions are modelled
as `Except PyExc` computations.  The orchestration code itself is embedded
line by line below.
-/

namespace App

/-- A Python exception value. `lookupError` corresponds to the
`LookupError` class raised by `nltk.data.find`; `otherError` is any other
exception class (all are subclasses of `Exception`). -/
inductive PyExc where
  | lookupError (msg : String)
  | otherError (msg : String)
deriving DecidableEq, Repr

/-- Outcome of `nltk.data.find(resource_name)` at line 21 of app.py: the
external collaborator either locates the resource or raises `LookupError`
(its documented contract). -/
inductive FindResult where
  | found
  | missing
deriving DecidableEq, Repr

/-- One immediate child of the tree returned by `nltk.ne_chunk`: either a
plain `(token, tag)` pair, or a labelled entity group holding a category
label and its span of `(token, tag)` leaves. -/
inductive NEChild where
  | leaf (token tag : String)
  | group (label : String) (leaves : List (String × String))
deriving DecidableEq, Repr

/-- The chunker output tree, seen as the ordered list of immediate children
of the top node, which is how the source iterates over it
(`for subtree in ner_tree`). -/
abbrev NERTree := List NEChild

/-- The external NLTK toolkit and resource registry, as seen by app.py.
Functions that may raise are `Except PyExc` valued; `Except.error e`
models a raised exception `e`. -/
structure Env where
  find : String → FindResult
  download : String → Except PyExc Unit
  wordTokenize : String → Except PyExc (List String)
  stopWords : List String
  stem : String → String
  lemmatize : String → String
  posTag : List String → Except PyExc (List (String × String))
  neChunk : List (String × String) → Except PyExc NERTree

/-- Python `str.lower()`, restricted to ASCII: lowercase every
character. -/
def pyLower (s : String) : String :=
  String.mk (s.data.map Char.toLower)

/-- Python `str.isalnum()`: true iff the string is nonempty and every
character is alphanumeric (restricted to the ASCII classes used here). -/
def pyIsalnum (s : String) : Bool :=
  s ≠ "" && s.data.all Char.isAlphanum

/-- Helper for `pySplit`: scan the characters, accumulating the current
word in reverse; whitespace ends the current word, and empty words are
never emitted. -/
def pySplitAux : List Char → List Char → List String
  | [], acc => if acc.isEmpty then [] else [String.mk acc.reverse]
  | c :: cs, acc =>
      if c.isWhitespace then
        if acc.isEmpty then pySplitAux cs []
        else String.mk acc.reverse :: pySplitAux cs []
      else pySplitAux cs (c :: acc)

/-- Python `str.split()` with no arguments: split on runs of whitespace,
producing no empty tokens. Used by the tokenization fallback at line 91. -/
def pySplit (text : String) : List String :=
  pySplitAux text.data []

/-- Embedding of `download_nltk_resource` (app.py lines 14-30) with Python
exception propagation made explicit: a result `Except.error e` would mean
an exception escapes the function uncaught. The outer `try` catches only
`LookupError` from `find`; the inner `try` catches every `Exception` from
`download`. -/
def download_nltk_resource_exc (env : Env) (resource_name : String) :
    Except PyExc Bool :=
  match env.find resource_name with
  | .found => .ok true
  | .missing =>
      match env.download resource_name with
      | .ok _ => .ok true
      | .error _ => .ok false

/-- The boolean value computed by `download_nltk_resource` (lines 14-30):
true if `nltk.data.find` succeeds, otherwise true iff the download raised
no exception. -/
def download_nltk_resource (env : Env) (resource_name : String) : Bool :=
  match env.find resource_name with
  | .found => true
  | .missing =>
      match env.download resource_name with
      | .ok _ => true
      | .error _ => false

/-- The fixed resource list of app.py lines 34-41. -/
def resources : List String :=
  ["punkt", "stopwords", "wordnet", "averaged_perceptron_tagger",
   "maxent_ne_chunker", "words"]

/-- The provisioning loop of app.py lines 44-47 computing `all_success`,
with exception propagation explicit. -/
def provision_exc (env : Env) (rs : List String) : Except PyExc Bool :=
  rs.foldlM
    (fun acc r => do
      let ok ← download_nltk_resource_exc env r
      pure (if ok then acc else false))
    true

/-- The `all_success` flag after the loop at lines 44-47. -/
def all_success (env : Env) : Bool :=
  resources.foldl
    (fun acc r => if download_nltk_resource env r then acc else false)
    true

/-- Tokenization stage (app.py lines 84-92): `word_tokenize`, falling back
to a plain whitespace split when the tokenizer raises. -/
def tokensOf (env : Env) (user_text : String) : List String :=
  match env.wordTokenize user_text with
  | .ok ts => ts
  | .error _ => pySplit user_text

/-- Stopword removal (app.py line 100): keep a token iff its lowercased
form is not in the stopword set and `isalnum()` holds. -/
def filtered_tokens (env : Env) (tokens : List String) : List String :=
  tokens.filter
    (fun word => !(env.stopWords.contains (pyLower word)) && pyIsalnum word)

/-- Stemming stage (app.py line 109): the stemmer mapped over the filtered
tokens. -/
def stemmed_tokens (env : Env) (filtered : List String) : List String :=
  filtered.map env.stem

/-- Lemmatization stage (app.py line 118): the lemmatizer mapped over the
filtered tokens. -/
def lemmatized_tokens (env : Env) (filtered : List String) : List String :=
  filtered.map env.lemmatize

/-- POS tagging stage (app.py lines 127-146): `pos_tag` over the original
token list, falling back to pairing every token with the sentinel tag
"UNK" when the tagger raises. -/
def pos_tagged_tokens (env : Env) (tokens : List String) :
    List (String × String) :=
  match env.posTag tokens with
  | .ok tagged => tagged
  | .error _ => tokens.map (fun token => (token, "UNK"))

/-- Entity extraction from the chunker tree (app.py lines 163-168): walk
the immediate children in order; for each labelled group append the pair
of its leaf tokens joined by a single space and its label; skip plain
`(token, tag)` children. -/
def named_entities (ner_tree : NERTree) : List (String × String) :=
  ner_tree.filterMap
    (fun subtree =>
      match subtree with
      | .leaf _ _ => none
      | .group label leaves =>
          some (String.intercalate " " (leaves.map Prod.fst), label))

/-- NER stage (app.py lines 155-178): chunk the tagged tokens; on success
produce the tree and the extracted entity list, on a raised exception
report failure and compute no entity list. -/
def ner_stage (env : Env) (tagged : List (String × String)) :
    Option (NERTree × List (String × String)) :=
  match env.neChunk tagged with
  | .ok tree => some (tree, named_entities tree)
  | .error _ => none

/-- The six artifacts produced by one run of the processing block. -/
structure PipelineOut where
  tokens : List String
  filtered : List String
  stemmed : List String
  lemmatized : List String
  tagged : List (String × String)
  nerResult : Option (NERTree × List (String × String))
deriving Repr

/-- The processing block of app.py lines 72-180, run on a nonempty input. -/
def runPipeline (env : Env) (user_text : String) : PipelineOut :=
  let tokens := tokensOf env user_text
  let filtered := filtered_tokens env tokens
  let tagged := pos_tagged_tokens env tokens
  { tokens := tokens
    filtered := filtered
    stemmed := stemmed_tokens env filtered
    lemmatized := lemmatized_tokens env filtered
    tagged := tagged
    nerResult := ner_stage env tagged }

/-- The guard `if user_text:` at app.py line 72: a Python string is truthy
iff nonempty, so the pipeline runs only on nonempty input. -/
def runApp (env : Env) (user_text : String) : Option PipelineOut :=
  if user_text = "" then none else some (runPipeline env user_text)

/-- A sample well-behaved toolkit environment, used to instantiate the
theorems below at concrete inputs. -/
def sampleEnvOk : Env :=
  { find := fun _ => .found
    download := fun _ => .ok ()
    wordTokenize := fun t => .ok (pySplit t)
    stopWords := ["the", "a", "to", "some", "for"]
    stem := fun s => s
    lemmatize := fun s => s
    posTag := fun ts => .ok (ts.map (fun t => (t, "NN")))
    neChunk := fun tagged => .ok (tagged.map (fun p => NEChild.leaf p.1 p.2)) }

/-- A sample environment whose tokenizer and tagger raise, exercising the
fallback branches. -/
def sampleEnvFail : Env :=
  { sampleEnvOk with
    wordTokenize := fun _ => .error (PyExc.lookupError "punkt")
    posTag := fun _ => .error (PyExc.lookupError "averaged_perceptron_tagger") }

/-- A sample environment that differs from `sampleEnvOk` only in the
stopword set, the stemmer and the lemmatizer. -/
def sampleEnvNoStops : Env :=
  { sampleEnvOk with
    stopWords := []
    stem := fun s => s ++ "x"
    lemmatize := fun s => s ++ "y" }

/-- C1: for every resource name, download_nltk_resource returns true iff
the resource is present after the call (pre-existing, or the fetch
completed), and false iff the fetch failed. -/
theorem download_resource_present_iff (env : Env) (r : String) :
    (download_nltk_resource env r = true ↔
      (env.find r = .found ∨
        (env.find r = .missing ∧ env.download r = .ok ()))) ∧
    (download_nltk_resource env r = false ↔
      (env.find r = .missing ∧ ∃ e, env.download r = .error e)) := by
  unfold download_nltk_resource
  cases hf : env.find r <;> cases hd : env.download r <;> simp_all

theorem download_resource_present_iff_witness :
    download_nltk_resource sampleEnvOk "punkt" = true :=
  (download_resource_present_iff sampleEnvOk "punkt").1.mpr (Or.inl rfl)

/-- C2: the filtered sequence is the order-preserving subsequence of the
token sequence keeping exactly the tokens whose lowercased form is not in
the stopword set and which pass isalnum; hence no filtered element is a
stopword (case-insensitively) and none contains a non-alphanumeric
character. -/
theorem filtered_tokens_spec (env : Env) (tokens : List String) :
    (filtered_tokens env tokens).Sublist tokens ∧
    (∀ w, w ∈ filtered_tokens env tokens ↔
      (w ∈ tokens ∧ env.stopWords.contains (pyLower w) = false ∧
        pyIsalnum w = true)) ∧
    (∀ w ∈ filtered_tokens env tokens,
      env.stopWords.contains (pyLower w) = false ∧
        ∀ c ∈ w.data, c.isAlphanum) := by
  refine ⟨List.filter_sublist _, ?_, ?_⟩
  · intro w
    simp [filtered_tokens, List.mem_filter, pyIsalnum, Bool.and_eq_true,
      and_assoc]
  · intro w hw
    simp only [filtered_tokens, List.mem_filter, Bool.and_eq_true,
      Bool.not_eq_true', pyIsalnum] at hw
    refine ⟨hw.2.1, ?_⟩
    have hall := hw.2.2.2
    simpa [List.all_eq_true] using hall

theorem filtered_tokens_spec_witness :
    "buy" ∈ filtered_tokens sampleEnvOk
      ["buy", "some", "delicious", "apples", "$", "5.50", "."] ∧
    "some" ∉ filtered_tokens sampleEnvOk
      ["buy", "some", "delicious", "apples", "$", "5.50", "."] ∧
    "$" ∉ filtered_tokens sampleEnvOk
      ["buy", "some", "delicious", "apples", "$", "5.50", "."] := by
  refine ⟨?_, ?_, ?_⟩
  · exact ((filtered_tokens_spec sampleEnvOk
      ["buy", "some", "delicious", "apples", "$", "5.50", "."]).2.1
        "buy").mpr (by decide)
  · intro hmem
    have h := ((filtered_tokens_spec sampleEnvOk
      ["buy", "some", "delicious", "apples", "$", "5.50", "."]).2.1
        "some").mp hmem
    exact absurd h.2.1 (by decide)
  · intro hmem
    have h := ((filtered_tokens_spec sampleEnvOk
      ["buy", "some", "delicious", "apples", "$", "5.50", "."]).2.1
        "$").mp hmem
    exact absurd h.2.2 (by decide)

/-- C3: stemming and lemmatization are independent per-token maps over the
same filtered sequence (lemmatization does not read the stemmed output),
so both results have the same length as the filtered sequence. -/
theorem stem_lemma_independent_same_length (env : Env) (user_text : String) :
    (runPipeline env user_text).stemmed =
      ((runPipeline env user_text).filtered).map env.stem ∧
    (runPipeline env user_text).lemmatized =
      ((runPipeline env user_text).filtered).map env.lemmatize ∧
    (runPipeline env user_text).stemmed.length =
      (runPipeline env user_text).filtered.length ∧
    (runPipeline env user_text).lemmatized.length =
      (runPipeline env user_text).filtered.length := by
  simp [runPipeline, stemmed_tokens, lemmatized_tokens]

/-- C4: given the external tagger contract of one tag per token on
success, the tagged sequence has exactly one pair per element of the
original token sequence, in the normal branch and in the fallback
branch. -/
theorem tagged_length_eq_tokens_length (env : Env) (tokens : List String)
    (hTagger : ∀ ts tagged, env.posTag ts = .ok tagged →
      tagged.length = ts.length) :
    (pos_tagged_tokens env tokens).length = tokens.length := by
  unfold pos_tagged_tokens
  cases h : env.posTag tokens with
  | ok tagged => exact hTagger _ _ h
  | error e => simp

theorem tagged_length_eq_tokens_length_witness :
    (pos_tagged_tokens sampleEnvOk ["apples", "."]).length = 2 :=
  tagged_length_eq_tokens_length sampleEnvOk ["apples", "."]
    (fun ts tagged h => by
      simp only [sampleEnvOk, Except.ok.injEq] at h
      subst h
      simp)

/-- C5: when tokenization raises, the token sequence is the whitespace
split of the input; in particular "buy some delicious apples" yields the
four words. -/
theorem tokenize_fallback_whitespace_split (env : Env) (user_text : String)
    (e : PyExc) (hfail : env.wordTokenize user_text = .error e) :
    tokensOf env user_text = pySplit user_text ∧
    pySplit "buy some delicious apples" =
      ["buy", "some", "delicious", "apples"] := by
  constructor
  · unfold tokensOf
    rw [hfail]
  · decide

theorem tokenize_fallback_whitespace_split_witness :
    tokensOf sampleEnvFail "buy some delicious apples" =
      ["buy", "some", "delicious", "apples"] := by
  have h := tokenize_fallback_whitespace_split sampleEnvFail
    "buy some delicious apples" (PyExc.lookupError "punkt") rfl
  rw [h.1, h.2]

/-- C6: when tagging raises, every token of the full unfiltered token
sequence is paired with the fixed sentinel tag "UNK". -/
theorem pos_fallback_unknown_tag (env : Env) (tokens : List String)
    (e : PyExc) (hfail : env.posTag tokens = .error e) :
    pos_tagged_tokens env tokens =
      tokens.map (fun token => (token, "UNK")) ∧
    (pos_tagged_tokens env tokens).length = tokens.length := by
  unfold pos_tagged_tokens
  rw [hfail]
  simp

theorem pos_fallback_unknown_tag_witness :
    pos_tagged_tokens sampleEnvFail ["buy", "apples"] =
      [("buy", "UNK"), ("apples", "UNK")] := by
  have h := pos_fallback_unknown_tag sampleEnvFail ["buy", "apples"]
    (PyExc.lookupError "averaged_perceptron_tagger") rfl
  rw [h.1]
  rfl

/-- C7: entity extraction walks the immediate children in order, pairing
each labelled group with its space-joined leaf tokens, skipping plain
(token, tag) children; a tree with no labelled group yields the empty
list, not an error. -/
theorem named_entities_extraction (tree : NERTree) (t g l : String)
    (lvs : List (String × String)) :
    named_entities ([] : NERTree) = [] ∧
    named_entities (NEChild.leaf t g :: tree) = named_entities tree ∧
    named_entities (NEChild.group l lvs :: tree) =
      (String.intercalate " " (lvs.map Prod.fst), l) ::
        named_entities tree ∧
    ((∀ c ∈ tree, ∃ tok tag, c = NEChild.leaf tok tag) →
      named_entities tree = []) := by
  refine ⟨rfl, by simp [named_entities], by simp [named_entities], ?_⟩
  intro h
  induction tree with
  | nil => rfl
  | cons c cs ih =>
      obtain ⟨tok, tag, rfl⟩ := h c (by simp)
      simp only [named_entities, List.filterMap_cons] at ih ⊢
      exact ih (fun c hc => h c (by simp [hc]))

theorem named_entities_extraction_witness :
    named_entities [NEChild.group "PERSON" [("Smith", "NNP")],
      NEChild.leaf "went" "VBD"] = [("Smith", "PERSON")] := by
  have h := named_entities_extraction [NEChild.leaf "went" "VBD"]
    "went" "VBD" "PERSON" [("Smith", "NNP")]
  rw [h.2.2.1, h.2.2.2 (fun c hc => by
    simp only [List.mem_singleton] at hc
    exact ⟨"went", "VBD", hc⟩)]
  rfl

/-- C8: POS tagging reads the unfiltered token sequence and NER chunking
reads the resulting tagged sequence; neither consumes the filtered
sequence, so both outputs are unchanged under any change of the stopword
set, stemmer or lemmatizer. -/
theorem tagging_uses_unfiltered_tokens (e1 e2 : Env) (user_text : String)
    (hTok : e1.wordTokenize = e2.wordTokenize)
    (hTag : e1.posTag = e2.posTag)
    (hChunk : e1.neChunk = e2.neChunk) :
    (runPipeline e1 user_text).tagged =
      pos_tagged_tokens e1 (runPipeline e1 user_text).tokens ∧
    (runPipeline e1 user_text).nerResult =
      ner_stage e1 (runPipeline e1 user_text).tagged ∧
    (runPipeline e1 user_text).tagged =
      (runPipeline e2 user_text).tagged ∧
    (runPipeline e1 user_text).nerResult =
      (runPipeline e2 user_text).nerResult := by
  refine ⟨rfl, rfl, ?_, ?_⟩ <;>
    simp [runPipeline, tokensOf, pos_tagged_tokens, ner_stage, hTok, hTag,
      hChunk]

theorem tagging_uses_unfiltered_tokens_witness :
    (runPipeline sampleEnvOk "buy the apples").tagged =
      (runPipeline sampleEnvNoStops "buy the apples").tagged :=
  (tagging_uses_unfiltered_tokens sampleEnvOk sampleEnvNoStops
    "buy the apples" rfl rfl rfl).2.2.1

/-- C9: on the empty input string the guard `if user_text:` is falsy, so
no pipeline stage runs and no output is produced. -/
theorem empty_input_no_pipeline (env : Env) : runApp env "" = none := rfl

/-- C10: download_nltk_resource is total at the provisioning boundary:
the LookupError from the presence check and any exception from the fetch
are caught, the function always returns a boolean, and the provisioning
loop never propagates an exception. -/
theorem provisioning_never_raises (env : Env) (r : String)
    (rs : List String) :
    download_nltk_resource_exc env r =
      Except.ok (download_nltk_resource env r) ∧
    provision_exc env rs = Except.ok
      (rs.foldl
        (fun acc x => if download_nltk_resource env x then acc else false)
        true) := by
  constructor
  · unfold download_nltk_resource_exc download_nltk_resource
    cases env.find r
    · rfl
    · cases env.download r <;> rfl
  · unfold provision_exc
    have key : ∀ (xs : List String) (acc : Bool),
        xs.foldlM
          (fun acc x => do
            let ok ← download_nltk_resource_exc env x
            pure (if ok then acc else false))
          acc =
        Except.ok (xs.foldl
          (fun acc x => if download_nltk_resource env x then acc else false)
          acc) := by
      intro xs
      induction xs with
      | nil => intro acc; rfl
      | cons x xs ih =>
          intro acc
          have hx : download_nltk_resource_exc env x =
              Except.ok (download_nltk_resource env x) := by
            unfold download_nltk_resource_exc download_nltk_resource
            cases env.find x
            · rfl
            · cases env.download x <;> rfl
          rw [List.foldlM_cons, List.foldl_cons, hx]
          exact ih _
    exact key rs true

end App
